import Mathlib

set_option maxHeartbeats 1000000

/-!
Verification of the scheduling and process-orchestration engine of
src/auto.py: the cron trigger queue (Schedule), the run_loop control loop,
worker spawning and locking (_run_proc), filename sanitization, runtime
configuration reload (RunConfig), and the signal-driven shutdown protocol.

Modelling conventions: timestamps are natural numbers; heapq is modelled
extensionally by the sorted list of the heap's contents (heappush is
ordered insertion, the heap minimum schedule[0] is the head); exceptions
(IndexError from indexing an empty list) become Option or explicit error
outcomes; filesystem and logging side effects are dropped.
-/

/-- Modelled from the spec: croniter's cron evaluation (an external
dependency, not part of src/).  Spec 4.1 requires the next occurrence to be
computed relative to a caller-supplied base time; cron patterns are
periodic, so a pattern is modelled by its recurrence period together with
the set of matching offsets inside one period. -/
structure CronPattern where
  period : Nat
  offsets : List Nat
  deriving DecidableEq, Repr

/-- A time matches the cron pattern when its offset within the period is
one of the pattern's offsets. -/
def cronMatches (p : CronPattern) (t : Nat) : Bool :=
  p.offsets.contains (t % p.period)

/-- Fuel-bounded linear search for the next matching time at or after t. -/
def cronNextAux (p : CronPattern) : Nat → Nat → Nat
  | t, 0 => t
  | t, fuel + 1 => if cronMatches p t then t else cronNextAux p (t + 1) fuel

/-- Modelled from the spec: croniter(...).get_next() computes the earliest
cron occurrence strictly after the base time (spec 4.1).  One full period
of fuel suffices for any well-formed pattern. -/
def cronNext (p : CronPattern) (base : Nat) : Nat :=
  cronNextAux p (base + 1) p.period

/-- A well-formed cron pattern: positive period and at least one matching
offset inside the period, so a next occurrence always exists. -/
def cronValid (p : CronPattern) : Prop :=
  0 < p.period ∧ ∃ o ∈ p.offsets, o < p.period

instance (p : CronPattern) : Decidable (cronValid p) := by
  unfold cronValid; exact inferInstance

/-- Modelled from the spec: ScheduledItem (defined in onreceipt.fetch.load,
outside src/) carries a job name and cron pattern (spec 3).  Spec 9 records
that the source heap relies on the incidental comparability of these
objects rather than any name-based ordering; the incidental CPython
identity used by default comparison is modelled by the addr field. -/
structure ScheduledItem where
  name : String
  cron_pattern : CronPattern
  addr : Nat
  deriving DecidableEq, Repr

/-- Ordering of heap entries (next_trigger_time, item): Python tuple
comparison orders by the timestamp first and, on equal timestamps, by the
items' incidental comparison, modelled by addr. -/
def entryR (a b : Nat × ScheduledItem) : Prop :=
  a.1 < b.1 ∨ (a.1 = b.1 ∧ a.2.addr ≤ b.2.addr)

instance : DecidableRel entryR := fun a b => by
  unfold entryR; exact inferInstance

instance : IsTotal (Nat × ScheduledItem) entryR :=
  ⟨by intro a b; unfold entryR; omega⟩

instance : IsTrans (Nat × ScheduledItem) entryR :=
  ⟨by intro a b c; unfold entryR; omega⟩

/-- Schedule (src/auto.py): tracks scheduled items, keeping them ordered by
date so the next item is easily retrieved.  The heapq list is modelled by
the sorted list of its contents. -/
structure Schedule where
  schedule : List (Nat × ScheduledItem)
  deriving DecidableEq, Repr

/-- Schedule.add_item: compute croniter(cron_pattern, start_time=base_date)
.get_next(), push the entry onto the heap, return the trigger time.  The
source's optional base_date (defaulting to time.time()) is passed
explicitly. -/
def Schedule.add_item (s : Schedule) (item : ScheduledItem) (base_date : Nat) :
    Nat × Schedule :=
  let next_trigger := cronNext item.cron_pattern base_date
  (next_trigger, ⟨List.orderedInsert entryR (next_trigger, item) s.schedule⟩)

/-- Schedule.__init__: seed one entry per configured item, each based at
now (time.time() at construction). -/
def Schedule.init (items : List ScheduledItem) (now : Nat) : Schedule :=
  items.foldl (fun s item => (s.add_item item now).2) ⟨[]⟩

/-- Schedule.peek_next: self.schedule[0]; none models the IndexError raised
on an empty list. -/
def Schedule.peek_next (s : Schedule) : Option (Nat × ScheduledItem) :=
  s.schedule.head?

/-- Schedule.pop_next: heapq.heappop; none models the IndexError raised on
an empty heap. -/
def Schedule.pop_next (s : Schedule) : Option ((Nat × ScheduledItem) × Schedule) :=
  match s.schedule with
  | [] => none
  | e :: rest => some (e, ⟨rest⟩)

/-- Number of pending entries for a given job name. -/
def countName (s : Schedule) (name : String) : Nat :=
  s.schedule.countP (fun e => e.2.name == name)

/-- Modelled from the spec: the configuration collaborator (load_config,
outside src/) supplies a list of scheduled items plus a base directory
(spec 6). -/
structure Config where
  rules : List ScheduledItem
  directory : String
  deriving Repr

/-- os.path.join for a single relative component. -/
def pathJoin (a b : String) : String :=
  a ++ "/" ++ b

/-- Python truthiness test for an optional string: None and the empty
string are falsy. -/
def pyFalsy : Option String → Bool
  | none => true
  | some s => s == ""

/-- RunConfig (src/auto.py): runtime configuration. -/
structure RunConfig where
  are_exiting : Bool
  schedule : Option Schedule
  base_directory : Option String
  log_directory : Option String
  lock_directory : Option String
  deriving DecidableEq, Repr

/-- RunConfig.__init__. -/
def RunConfig.initState : RunConfig :=
  { are_exiting := false, schedule := none, base_directory := none,
    log_directory := none, lock_directory := none }

/-- RunConfig.reload: rebuild the schedule and directories from a freshly
loaded configuration.  The lock directory cannot change live: it is set
only when it is currently falsy (None or empty).  Directory-creation side
effects are omitted. -/
def RunConfig.reload (o : RunConfig) (config : Config) (now : Nat) : RunConfig :=
  let sched := Schedule.init config.rules now
  let base := config.directory
  let lock := if pyFalsy o.lock_directory then some (pathJoin base "lock")
              else o.lock_directory
  { o with schedule := some sched, base_directory := some base,
           lock_directory := lock, log_directory := some (pathJoin base "log") }

/-- Apply a sequence of reloads (the configuration and time.time() seen at
each reload). -/
def applyReloads (o : RunConfig) (rs : List (Config × Nat)) : RunConfig :=
  rs.foldl (fun o r => o.reload r.1 r.2) o

/-- Observable action of one iteration of the run_loop while body. -/
inductive IterOutcome where
  | idleSleep : IterOutcome
  | dispatch : (Nat × ScheduledItem) → Nat → IterOutcome
  | sleepUntil : Nat → IterOutcome
  | indexError : IterOutcome
  deriving DecidableEq, Repr

/-- One iteration of the run_loop while body (src/auto.py lines 343-384) at
current time now.  The source guard `if not o.schedule` tests the
truthiness of the Schedule object itself, which is always true once a
schedule is loaded, so only a missing schedule (None) takes the idle
branch; peeking the empty heap then raises IndexError, modelled by the
indexError outcome.  Child-process bookkeeping is modelled separately by
DaemonState. -/
def loopIter (o : RunConfig) (now : Nat) : RunConfig × IterOutcome :=
  match o.schedule with
  | none => (o, IterOutcome.idleSleep)
  | some sched =>
    match sched.peek_next with
    | none => (o, IterOutcome.indexError)
    | some (scheduled_time, _) =>
      if scheduled_time < now then
        match sched.pop_next with
        | none => (o, IterOutcome.indexError)
        | some ((t, item), sched') =>
          let r := sched'.add_item item now
          ({ o with schedule := some r.2 }, IterOutcome.dispatch (t, item) r.1)
      else
        (o, IterOutcome.sleepUntil scheduled_time)

/-- Result of one worker process (src _run_proc): its exit status and how
many times the module's trigger was invoked. -/
structure WorkerOutcome where
  exitCode : Nat
  triggerCalls : Nat
  deriving DecidableEq, Repr

/-- _run_proc: after redirecting output, a failed lock acquisition logs at
debug level and exits 0 without triggering; otherwise the module is
triggered and the exit status is whatever the trigger produces. -/
def runProc (canLock : Bool) (triggerExitCode : Nat) : WorkerOutcome :=
  if !canLock then { exitCode := 0, triggerCalls := 0 }
  else { exitCode := triggerExitCode, triggerCalls := 1 }

/-- Per-character sanitization step of _sanitize_for_filename: keep
alphanumerics (str.isalnum, modelled by Char.isAlphanum), replace anything
else with a dash. -/
def sanitizeChar (x : Char) : Char :=
  if x.isAlphanum then x else '-'

/-- _sanitize_for_filename (src/auto.py): replace every non-alphanumeric
character of the filename with a dash. -/
def sanitizeForFilename (filename : String) : String :=
  ⟨filename.data.map sanitizeChar⟩

/-- Abstract daemon state for the signal and shutdown protocol of run_loop:
the exiting flag, the number of in-flight workers, totals of spawned and
reported workers, and whether the process has exited. -/
structure DaemonState where
  are_exiting : Bool
  running : Nat
  spawned : Nat
  reported : Nat
  exited : Bool
  deriving DecidableEq, Repr

/-- Process start: run_loop begins with are_exiting false and no
children. -/
def dInit : DaemonState :=
  { are_exiting := false, running := 0, spawned := 0, reported := 0,
    exited := false }

/-- Transitions of the daemon (src run_loop): the terminate signal handler
sets are_exiting; an iteration of the while body (entered only while
are_exiting is false) may spawn a worker, reap and report a finished one,
or merely sleep; once are_exiting is observed the loop falls through to
_on_shutdown, which joins and reports every outstanding child before the
process exits. -/
inductive DStep : DaemonState → DaemonState → Prop
  | trigger_exit (s : DaemonState) (h : s.exited = false) :
      DStep s { s with are_exiting := true }
  | iter_spawn (s : DaemonState) (h : s.exited = false)
      (hrun : s.are_exiting = false) :
      DStep s { s with running := s.running + 1, spawned := s.spawned + 1 }
  | iter_reap (s : DaemonState) (h : s.exited = false)
      (hrun : s.are_exiting = false) (hr : 0 < s.running) :
      DStep s { s with running := s.running - 1, reported := s.reported + 1 }
  | iter_sleep (s : DaemonState) (h : s.exited = false)
      (hrun : s.are_exiting = false) :
      DStep s s
  | shutdown (s : DaemonState) (h : s.exited = false)
      (hexit : s.are_exiting = true) :
      DStep s { s with running := 0, reported := s.reported + s.running,
                       exited := true }

/-- Reachability by zero or more daemon transitions. -/
inductive DReach : DaemonState → DaemonState → Prop
  | refl (s : DaemonState) : DReach s s
  | step {s t u : DaemonState} : DReach s t → DStep t u → DReach s u

/-! ### Cron evaluation lemmas -/

/-- The fuel-bounded search never returns a time before its start. -/
theorem le_cronNextAux (p : CronPattern) :
    ∀ fuel t, t ≤ cronNextAux p t fuel
  | 0, t => Nat.le_refl t
  | fuel + 1, t => by
    unfold cronNextAux
    by_cases h : cronMatches p t = true
    · rw [if_pos h]
    · rw [if_neg h]
      exact Nat.le_trans (Nat.le_succ t) (le_cronNextAux p fuel (t + 1))

/-- If some matching time lies inside the fuel window, the search returns a
matching time that is minimal among matches at or after the start. -/
theorem cronNextAux_spec (p : CronPattern) :
    ∀ fuel t, (∃ u, t ≤ u ∧ u < t + fuel ∧ cronMatches p u = true) →
      cronMatches p (cronNextAux p t fuel) = true ∧
      ∀ v, t ≤ v → cronMatches p v = true → cronNextAux p t fuel ≤ v := by
  intro fuel
  induction fuel with
  | zero =>
    intro t h
    obtain ⟨u, h1, h2, _⟩ := h
    omega
  | succ fuel ih =>
    intro t h
    unfold cronNextAux
    by_cases hm : cronMatches p t = true
    · rw [if_pos hm]
      exact ⟨hm, fun v hv _ => hv⟩
    · rw [if_neg hm]
      have hstep : ∃ u, t + 1 ≤ u ∧ u < t + 1 + fuel ∧ cronMatches p u = true := by
        obtain ⟨u, h1, h2, h3⟩ := h
        refine ⟨u, ?_, by omega, h3⟩
        rcases Nat.eq_or_lt_of_le h1 with heq | hlt
        · exact absurd (heq ▸ h3) hm
        · omega
      obtain ⟨hmat, hmin⟩ := ih (t + 1) hstep
      refine ⟨hmat, ?_⟩
      intro v hv hmv
      have hv1 : t + 1 ≤ v := by
        rcases Nat.eq_or_lt_of_le hv with heq | hlt
        · exact absurd (heq ▸ hmv) hm
        · omega
      exact hmin v hv1 hmv

/-- In any window of one full period there is a time of any prescribed
residue. -/
theorem exists_mod_eq_in_window (p k n : Nat) (hp : 0 < p) :
    ∃ u, n ≤ u ∧ u < n + p ∧ u % p = k % p := by
  have hmn : n % p < p := Nat.mod_lt n hp
  have hmk : k % p < p := Nat.mod_lt k hp
  have hd : p * (n / p) + n % p = n := Nat.div_add_mod n p
  by_cases hc : n % p ≤ k % p
  · refine ⟨k % p + p * (n / p), by omega, by omega, ?_⟩
    rw [Nat.add_mul_mod_self_left]
    exact Nat.mod_mod_of_dvd k dvd_rfl
  · refine ⟨k % p + p * (n / p) + p, by omega, by omega, ?_⟩
    rw [Nat.add_mod_right, Nat.add_mul_mod_self_left]
    exact Nat.mod_mod_of_dvd k dvd_rfl

/-- A valid pattern has a matching time in the period window following any
base. -/
theorem cronNext_exists_match (p : CronPattern) (h : cronValid p) (base : Nat) :
    ∃ u, base + 1 ≤ u ∧ u < base + 1 + p.period ∧ cronMatches p u = true := by
  obtain ⟨hp, o, ho, holt⟩ := h
  obtain ⟨u, h1, h2, h3⟩ := exists_mod_eq_in_window p.period o (base + 1) hp
  refine ⟨u, h1, h2, ?_⟩
  unfold cronMatches
  rw [h3, Nat.mod_eq_of_lt holt]
  simpa using ho

/-- cronNext computes the least match strictly after the base. -/
theorem cronNext_spec (p : CronPattern) (base : Nat) (h : cronValid p) :
    base < cronNext p base ∧ cronMatches p (cronNext p base) = true ∧
    ∀ v, base < v → cronMatches p v = true → cronNext p base ≤ v := by
  have hex := cronNext_exists_match p h base
  have hs := cronNextAux_spec p p.period (base + 1) hex
  refine ⟨?_, hs.1, ?_⟩
  · have hle := le_cronNextAux p p.period (base + 1)
    unfold cronNext
    omega
  · intro v hv hm
    exact hs.2 v (by omega) hm

/-! ### Claim theorems: C5, C7, C10 -/

/-- Claim C5: for every cron pattern (well-formed) and base time, add_item
computes the job's earliest cron occurrence strictly after the base,
inserts exactly that entry, and returns the timestamp; the returned
timestamp is strictly greater than the base time. -/
theorem c5_reschedule_strictly_future (s : Schedule) (item : ScheduledItem)
    (base : Nat) (h : cronValid item.cron_pattern) :
    base < (s.add_item item base).1 ∧
    cronMatches item.cron_pattern (s.add_item item base).1 = true ∧
    (∀ v, base < v → cronMatches item.cron_pattern v = true →
      (s.add_item item base).1 ≤ v) ∧
    ((s.add_item item base).2.schedule).Perm
      (((s.add_item item base).1, item) :: s.schedule) := by
  have hs := cronNext_spec item.cron_pattern base h
  refine ⟨hs.1, hs.2.1, hs.2.2, ?_⟩
  simpa [Schedule.add_item] using
    List.perm_orderedInsert entryR (cronNext item.cron_pattern base, item) s.schedule

def itemWit : ScheduledItem :=
  { name := "every-other-tick", cron_pattern := ⟨2, [0]⟩, addr := 0 }

/-- Witness for C5 at a concrete schedule, item and base. -/
theorem c5_witness :
    cronValid itemWit.cron_pattern ∧ 5 < ((⟨[]⟩ : Schedule).add_item itemWit 5).1 :=
  ⟨by decide, (c5_reschedule_strictly_future ⟨[]⟩ itemWit 5 (by decide)).1⟩

/-- Claim C7: a worker whose lock acquisition fails exits with status 0 and
never invokes the job's runnable trigger; lock contention is a skipped run,
not an error. -/
theorem c7_lock_contention_skips (triggerExitCode : Nat) :
    (runProc false triggerExitCode).exitCode = 0 ∧
    (runProc false triggerExitCode).triggerCalls = 0 :=
  ⟨rfl, rfl⟩

/-- Sanitization is idempotent one character at a time. -/
theorem sanitizeChar_idem (x : Char) : sanitizeChar (sanitizeChar x) = sanitizeChar x := by
  unfold sanitizeChar
  by_cases h : x.isAlphanum
  · simp [h]
  · simp [h]

/-- Claim C10: sanitization preserves length, turns each character into the
unchanged character when it is kept (alphanumeric) and into a dash
otherwise, and is idempotent. -/
theorem c10_sanitize_props (s : String) :
    (sanitizeForFilename s).length = s.length ∧
    (∀ i : Nat, (sanitizeForFilename s).data[i]? = (s.data[i]?).map sanitizeChar) ∧
    sanitizeForFilename (sanitizeForFilename s) = sanitizeForFilename s := by
  refine ⟨?_, ?_, ?_⟩
  · show (s.data.map sanitizeChar).length = s.data.length
    exact List.length_map s.data sanitizeChar
  · intro i
    show (s.data.map sanitizeChar)[i]? = (s.data[i]?).map sanitizeChar
    exact List.getElem?_map sanitizeChar s.data i
  · unfold sanitizeForFilename
    simp only [List.map_map]
    exact congrArg String.mk
      (List.map_congr_left (fun x _ => sanitizeChar_idem x))

/-! ### Heap contents lemmas -/

/-- Seeding folds ordered insertions: the resulting heap contents are a
permutation of one entry per item, appended to the initial contents. -/
theorem schedule_foldl_perm (now : Nat) :
    ∀ (items : List ScheduledItem) (l : List (Nat × ScheduledItem)),
      ((items.foldl (fun s item => (s.add_item item now).2) ⟨l⟩ : Schedule)).schedule.Perm
        ((items.map (fun it => (cronNext it.cron_pattern now, it))) ++ l) := by
  intro items
  induction items with
  | nil =>
    intro l
    simp
  | cons it its ih =>
    intro l
    simp only [List.foldl_cons, List.map_cons, List.cons_append, Schedule.add_item]
    exact (ih _).trans
      (((List.perm_orderedInsert entryR _ l).append_left
        (its.map (fun it => (cronNext it.cron_pattern now, it)))).trans List.perm_middle)

/-- Seeding folds ordered insertions: sortedness of the heap contents is
preserved. -/
theorem schedule_foldl_sorted (now : Nat) :
    ∀ (items : List ScheduledItem) (l : List (Nat × ScheduledItem)),
      l.Sorted entryR →
      ((items.foldl (fun s item => (s.add_item item now).2) ⟨l⟩ : Schedule)).schedule.Sorted entryR := by
  intro items
  induction items with
  | nil =>
    intro l hl
    exact hl
  | cons it its ih =>
    intro l hl
    simp only [List.foldl_cons, Schedule.add_item]
    exact ih _ (hl.orderedInsert _ _)

/-! ### Claim theorems: C2, C4 -/

/-- Claim C2 (amended): entries that share a next_trigger_time are yielded
in the order of the items' incidental identity (the default comparison of
the ScheduledItem objects, modelled by addr), not in lexicographic name
order: the seeded heap contents are pairwise ordered by entryR, whose tie
case compares addr, and rescheduling preserves that order.  Pops yield the
list in order, so equal-time entries pop in ascending addr order. -/
theorem c2_tie_order_by_identity :
    (∀ (items : List ScheduledItem) (now : Nat),
      ((Schedule.init items now).schedule).Pairwise entryR) ∧
    (∀ (s : Schedule) (item : ScheduledItem) (base : Nat),
      s.schedule.Pairwise entryR →
      (((s.add_item item base).2).schedule).Pairwise entryR) := by
  constructor
  · intro items now
    exact schedule_foldl_sorted now items [] List.sorted_nil
  · intro s item base hs
    simp only [Schedule.add_item]
    exact List.Sorted.orderedInsert _ _ hs

/-- Witness for C2 (amended) at a concrete schedule and item. -/
theorem c2_witness :
    ([] : List (Nat × ScheduledItem)).Pairwise entryR ∧
    (((⟨[]⟩ : Schedule).add_item itemWit 3).2).schedule.Pairwise entryR :=
  ⟨List.Pairwise.nil, c2_tie_order_by_identity.2 ⟨[]⟩ itemWit 3 List.Pairwise.nil⟩

def itemAlpha : ScheduledItem :=
  { name := "alpha", cron_pattern := ⟨1, [0]⟩, addr := 2 }

def itemBeta : ScheduledItem :=
  { name := "beta", cron_pattern := ⟨1, [0]⟩, addr := 1 }

/-- Claim C2 counterexample: seeding two jobs that are both due at instant
10 yields beta (addr 1) before alpha (addr 2) even though alpha's name is
lexicographically first: the tie is broken by the items' incidental
identity, not by job name. -/
theorem c2_counterexample :
    (Schedule.init [itemAlpha, itemBeta] 9).pop_next =
      some ((10, itemBeta), ⟨[(10, itemAlpha)]⟩) ∧
    itemAlpha.name < itemBeta.name := by
  refine ⟨by decide, ?_⟩
  exact String.lt_iff_toList_lt.mpr (by decide)

/-- Claim C4: the trigger queue holds exactly one pending entry per job:
seeding inserts one entry per configured item, and a dispatching iteration
pops a job's entry and re-inserts exactly one fresh entry for that job, so
every job's per-name entry count is unchanged by dispatch. -/
theorem c4_one_entry_per_job :
    (∀ (items : List ScheduledItem) (now : Nat) (name : String),
      countName (Schedule.init items now) name =
        items.countP (fun it => it.name == name)) ∧
    (∀ (o : RunConfig) (now : Nat) (o' : RunConfig) (e : Nat × ScheduledItem)
      (nt : Nat) (sched sched' : Schedule) (name : String),
      o.schedule = some sched →
      loopIter o now = (o', IterOutcome.dispatch e nt) →
      o'.schedule = some sched' →
      countName sched' name = countName sched name) := by
  constructor
  · intro items now name
    unfold countName Schedule.init
    have h := schedule_foldl_perm now items []
    rw [List.append_nil] at h
    rw [h.countP_eq]
    rw [List.countP_map]
    rfl
  · intro o now o' e nt sched sched' name ho hiter ho'
    obtain ⟨l⟩ := sched
    unfold loopIter at hiter
    rw [ho] at hiter
    cases l with
    | nil => simp [Schedule.peek_next] at hiter
    | cons a rest =>
      obtain ⟨t, item⟩ := a
      simp only [Schedule.peek_next, List.head?, Schedule.pop_next] at hiter
      by_cases hlt : t < now
      · rw [if_pos hlt] at hiter
        simp only [Prod.mk.injEq, IterOutcome.dispatch.injEq] at hiter
        obtain ⟨hoeq, he, hnt⟩ := hiter
        rw [← hoeq] at ho'
        simp only [Option.some.injEq] at ho'
        rw [← ho']
        unfold countName Schedule.add_item
        rw [(List.perm_orderedInsert entryR
          (cronNext item.cron_pattern now, item) rest).countP_eq]
        simp [List.countP_cons]
      · rw [if_neg hlt] at hiter
        simp at hiter

def oWit4 : RunConfig :=
  { are_exiting := false, schedule := some ⟨[(5, itemWit)]⟩,
    base_directory := none, log_directory := none, lock_directory := none }

/-- Witness for C4's dispatch conjunct at a concrete iteration. -/
theorem c4_witness :
    countName ⟨[(8, itemWit)]⟩ "every-other-tick" =
      countName ⟨[(5, itemWit)]⟩ "every-other-tick" :=
  c4_one_entry_per_job.2 oWit4 7
    { oWit4 with schedule := some ⟨[(8, itemWit)]⟩ } (5, itemWit) 8
    ⟨[(5, itemWit)]⟩ ⟨[(8, itemWit)]⟩ "every-other-tick" rfl (by decide) rfl

/-! ### Claim theorems: C1, C3, C6 -/

/-- Claim C1 (amended): in a RUNNING iteration with a loaded schedule, an
entry whose trigger time is strictly earlier than the current time is
popped, dispatched and rescheduled from now; an entry due exactly at the
current time is slept on rather than dispatched in that iteration, because
run_loop compares with strict less-than. -/
theorem c1_due_entry_dispatched
    (o : RunConfig) (sched : Schedule) (t : Nat) (item : ScheduledItem) (now : Nat)
    (ho : o.schedule = some sched)
    (hpeek : sched.peek_next = some (t, item))
    (hlt : t < now) :
    (loopIter o now).2 =
      IterOutcome.dispatch (t, item) (cronNext item.cron_pattern now) ∧
    (loopIter o now).1.schedule =
      some ⟨List.orderedInsert entryR (cronNext item.cron_pattern now, item)
            sched.schedule.tail⟩ := by
  obtain ⟨l⟩ := sched
  cases l with
  | nil => simp [Schedule.peek_next] at hpeek
  | cons a rest =>
    obtain ⟨t', item'⟩ := a
    simp only [Schedule.peek_next, List.head?, Option.some.injEq, Prod.mk.injEq] at hpeek
    obtain ⟨ht, hitem⟩ := hpeek
    subst ht
    subst hitem
    unfold loopIter
    rw [ho]
    simp only [Schedule.peek_next, List.head?, Schedule.pop_next]
    rw [if_pos hlt]
    exact ⟨rfl, rfl⟩

/-- Witness for C1 (amended) at a concrete overdue entry. -/
theorem c1_witness :
    (loopIter oWit4 7).2 =
      IterOutcome.dispatch (5, itemWit) (cronNext itemWit.cron_pattern 7) :=
  (c1_due_entry_dispatched oWit4 ⟨[(5, itemWit)]⟩ 5 itemWit 7 rfl rfl (by decide)).1

/-- Claim C1 counterexample: the earliest entry's trigger time equals the
current time (both are 5), yet the iteration sleeps on the entry instead of
dispatching it, because run_loop tests scheduled_time < now strictly. -/
theorem c1_counterexample :
    (Schedule.mk [(5, itemWit)]).peek_next = some (5, itemWit) ∧
    (loopIter oWit4 5).2 = IterOutcome.sleepUntil 5 ∧
    (loopIter oWit4 5).2 ≠
      IterOutcome.dispatch (5, itemWit) (cronNext itemWit.cron_pattern 5) := by
  refine ⟨rfl, rfl, by decide⟩

def configEmptyRules : Config :=
  { rules := [], directory := "base" }

/-- Claim C3 refuted by the source (code slip): after loading a
configuration with an empty job list, the guard `if not o.schedule` is
false because the Schedule object itself is truthy even when it holds no
items, so the loop does not take the idle-sleep branch: it peeks the empty
heap and self.schedule[0] raises an uncaught IndexError, terminating the
daemon. -/
theorem c3_empty_schedule_crash :
    (RunConfig.initState.reload configEmptyRules 0).schedule =
      some (Schedule.init [] 0) ∧
    (loopIter (RunConfig.initState.reload configEmptyRules 0) 100).2 =
      IterOutcome.indexError ∧
    (loopIter (RunConfig.initState.reload configEmptyRules 0) 100).2 ≠
      IterOutcome.idleSleep := by
  refine ⟨rfl, rfl, by decide⟩

/-- Claim C6: whenever an iteration dispatches and reschedules, the base of
the reschedule computation is the current time now observed in that
iteration, not the popped entry's original trigger time: the returned next
trigger and the re-inserted entry are cronNext of now. -/
theorem c6_reschedule_base_is_now
    (o : RunConfig) (now : Nat) (o' : RunConfig) (e : Nat × ScheduledItem)
    (nt : Nat) (sched : Schedule)
    (ho : o.schedule = some sched)
    (hiter : loopIter o now = (o', IterOutcome.dispatch e nt)) :
    nt = cronNext e.2.cron_pattern now ∧
    o'.schedule = some ⟨List.orderedInsert entryR
      (cronNext e.2.cron_pattern now, e.2) sched.schedule.tail⟩ := by
  obtain ⟨l⟩ := sched
  unfold loopIter at hiter
  rw [ho] at hiter
  cases l with
  | nil => simp [Schedule.peek_next] at hiter
  | cons a rest =>
    obtain ⟨t, item⟩ := a
    simp only [Schedule.peek_next, List.head?, Schedule.pop_next] at hiter
    by_cases hlt : t < now
    · rw [if_pos hlt] at hiter
      simp only [Prod.mk.injEq, IterOutcome.dispatch.injEq] at hiter
      obtain ⟨hoeq, he, hnt⟩ := hiter
      subst he
      subst hnt
      subst hoeq
      exact ⟨rfl, rfl⟩
    · rw [if_neg hlt] at hiter
      simp at hiter

/-- Witness for C6 at a concrete dispatch: the next trigger is computed
from now = 7 (giving 8), and basing it on the popped trigger time 5 would
have given a different answer. -/
theorem c6_witness :
    8 = cronNext itemWit.cron_pattern 7 ∧
    cronNext itemWit.cron_pattern 5 ≠ cronNext itemWit.cron_pattern 7 :=
  ⟨(c6_reschedule_base_is_now oWit4 7
      { oWit4 with schedule := some ⟨[(8, itemWit)]⟩ } (5, itemWit) 8
      ⟨[(5, itemWit)]⟩ rfl (by decide)).1,
   by decide⟩

/-! ### Claim theorems: C8, C9 -/

/-- run_loop bookkeeping invariant: every spawned worker is either still
running or already reported, and an exited process has no running
workers. -/
def dInv (s : DaemonState) : Prop :=
  s.reported + s.running = s.spawned ∧ (s.exited = true → s.running = 0)

/-- Every daemon transition preserves the bookkeeping invariant. -/
theorem dInv_step {s t : DaemonState} (h : DStep s t) (hs : dInv s) : dInv t := by
  obtain ⟨h1, h2⟩ := hs
  cases h with
  | trigger_exit hex => exact ⟨h1, h2⟩
  | iter_spawn hex hrun =>
    refine ⟨by simp; omega, fun hc => ?_⟩
    have hc' : s.exited = true := hc
    rw [hex] at hc'
    exact Bool.noConfusion hc'
  | iter_reap hex hrun hr =>
    refine ⟨by simp; omega, fun hc => ?_⟩
    have hc' : s.exited = true := hc
    rw [hex] at hc'
    exact Bool.noConfusion hc'
  | iter_sleep hex hrun => exact ⟨h1, h2⟩
  | shutdown hex hx => exact ⟨by simp; omega, fun _ => rfl⟩

/-- The bookkeeping invariant holds in every reachable daemon state. -/
theorem dInv_reach {s : DaemonState} (h : DReach dInit s) : dInv s := by
  induction h with
  | refl => exact ⟨rfl, fun _ => rfl⟩
  | step hr hstep ih => exact dInv_step hstep ih

/-- Claim C8: once are_exiting is set it is never reset and no further
worker is spawned by any transition, and the process is exited only in
states where no worker is still running and every spawned worker has been
joined and reported. -/
theorem c8_shutdown_protocol (s : DaemonState) (hreach : DReach dInit s) :
    (∀ t : DaemonState, DStep s t → s.are_exiting = true →
      t.are_exiting = true ∧ t.spawned = s.spawned) ∧
    (s.exited = true → s.running = 0 ∧ s.reported = s.spawned) := by
  constructor
  · intro t hstep hex
    cases hstep with
    | trigger_exit h => exact ⟨rfl, rfl⟩
    | iter_spawn h hrun => rw [hrun] at hex; exact Bool.noConfusion hex
    | iter_reap h hrun hr => rw [hrun] at hex; exact Bool.noConfusion hex
    | iter_sleep h hrun => rw [hrun] at hex; exact Bool.noConfusion hex
    | shutdown h hx => exact ⟨hx, rfl⟩
  · intro hex
    obtain ⟨h1, h2⟩ := dInv_reach hreach
    have h3 := h2 hex
    exact ⟨h3, by omega⟩

def dExiting : DaemonState :=
  { are_exiting := true, running := 0, spawned := 0, reported := 0,
    exited := false }

/-- Witness for C8: from a concrete reachable exiting state, the terminate
transition keeps are_exiting set and spawns nothing. -/
theorem c8_witness :
    dExiting.are_exiting = true ∧ dExiting.spawned = dExiting.spawned :=
  (c8_shutdown_protocol dExiting
      (DReach.step (DReach.refl dInit) (DStep.trigger_exit dInit rfl))).1
    dExiting (DStep.trigger_exit dExiting rfl) rfl

/-- Joining path components never yields the empty string. -/
theorem pathJoin_ne_empty (a b : String) : pathJoin a b ≠ "" := by
  unfold pathJoin
  intro h
  have h2 := congrArg String.data h
  simp [String.data_append] at h2

/-- After any reload the lock directory is set and non-falsy. -/
theorem reload_lock_truthy (o : RunConfig) (c : Config) (n : Nat) :
    pyFalsy ((o.reload c n).lock_directory) = false := by
  simp only [RunConfig.reload]
  by_cases h : pyFalsy o.lock_directory = true
  · rw [if_pos h]
    unfold pyFalsy
    exact beq_eq_false_iff_ne.mpr (pathJoin_ne_empty c.directory "lock")
  · rw [if_neg h]
    exact Bool.eq_false_iff.mpr h

/-- A non-falsy lock directory survives a reload unchanged. -/
theorem reload_keeps_lock (o : RunConfig) (c : Config) (n : Nat)
    (h : pyFalsy o.lock_directory = false) :
    (o.reload c n).lock_directory = o.lock_directory := by
  simp only [RunConfig.reload]
  rw [h]
  simp

/-- Any later sequence of reloads leaves a non-falsy lock directory
untouched. -/
theorem applyReloads_keeps_lock :
    ∀ (rs : List (Config × Nat)) (o : RunConfig),
      pyFalsy o.lock_directory = false →
      (applyReloads o rs).lock_directory = o.lock_directory := by
  intro rs
  induction rs with
  | nil =>
    intro o h
    rfl
  | cons r rs ih =>
    intro o h
    have h1 := reload_keeps_lock o r.1 r.2 h
    have h2 : pyFalsy ((o.reload r.1 r.2).lock_directory) = false := by
      rw [h1]
      exact h
    exact (ih (o.reload r.1 r.2) h2).trans h1

/-- Claim C9: each reload after the first replaces the schedule, base and
log directories wholesale from the newly loaded configuration, but leaves
the lock directory exactly as the first reload set it: the lock directory
is assigned at most once per process lifetime. -/
theorem c9_reload_frame (c1 : Config) (n1 : Nat) (rs : List (Config × Nat))
    (c2 : Config) (n2 : Nat) :
    (applyReloads (RunConfig.initState.reload c1 n1) rs).lock_directory =
      (RunConfig.initState.reload c1 n1).lock_directory ∧
    ((applyReloads (RunConfig.initState.reload c1 n1) rs).reload c2 n2).lock_directory =
      (RunConfig.initState.reload c1 n1).lock_directory ∧
    ((applyReloads (RunConfig.initState.reload c1 n1) rs).reload c2 n2).schedule =
      some (Schedule.init c2.rules n2) ∧
    ((applyReloads (RunConfig.initState.reload c1 n1) rs).reload c2 n2).base_directory =
      some c2.directory ∧
    ((applyReloads (RunConfig.initState.reload c1 n1) rs).reload c2 n2).log_directory =
      some (pathJoin c2.directory "log") := by
  have h0 := reload_lock_truthy RunConfig.initState c1 n1
  have h1 := applyReloads_keeps_lock rs (RunConfig.initState.reload c1 n1) h0
  have h2 : pyFalsy ((applyReloads (RunConfig.initState.reload c1 n1) rs).lock_directory) = false := by
    rw [h1]
    exact h0
  refine ⟨h1, ?_, rfl, rfl, rfl⟩
  rw [reload_keeps_lock _ _ _ h2]
  exact h1
